import Mathlib

/-!
Verification of the parking-automation repository: a shallow embedding of its
ledger data model, date utilities, scheduler, retention policies, add-booking
CLI and booking orchestrator, together with theorems settling the frozen
claims about them.

The repository stores dates as strings in the canonical day-month-year format
of date-fns ("dd-MM-yyyy"). We model a calendar date as a record of year,
month and day, model the date-fns format and parse functions at the level of
character lists, and model timestamps (normalized or not to midnight) as a
date plus milliseconds after midnight.
-/

/-- Calendar date at day granularity, as produced by the date-fns parse of the
canonical format "dd-MM-yyyy". -/
structure Date where
  year : Nat
  month : Nat
  day : Nat
deriving DecidableEq, Repr

/-- Proleptic Gregorian leap-year rule used by JavaScript Date arithmetic. -/
def isLeapYear (y : Nat) : Bool :=
  y % 4 == 0 && (y % 100 != 0 || y % 400 == 0)

/-- Number of days in a month of a given year. -/
def daysInMonth (y m : Nat) : Nat :=
  if m == 2 then (if isLeapYear y then 29 else 28)
  else if m == 4 || m == 6 || m == 9 || m == 11 then 30
  else 31

/-- A date is valid when it denotes an actual calendar day expressible in the
four-digit-year canonical format; the date-fns parser of "dd-MM-yyyy" accepts
exactly such component ranges (day checked against the month length). -/
def Date.valid (d : Date) : Bool :=
  1 ≤ d.year && d.year ≤ 9999 && 1 ≤ d.month && d.month ≤ 12 &&
  1 ≤ d.day && d.day ≤ daysInMonth d.year d.month

/-- Serial day number of a date (days since 0000-03-01, Gregorian civil
calendar). This is the day-granularity abstraction of the millisecond value
returned by getTime() on a midnight-normalized JavaScript Date, so equality
and order of day numbers mirror equality and order of such timestamps, and
adding one day adds one. -/
def rataDie (dt : Date) : Int :=
  let y : Nat := if dt.month ≤ 2 then dt.year - 1 else dt.year
  let era : Nat := y / 400
  let yoe : Nat := y % 400
  let mp : Nat := (dt.month + 9) % 12
  let doy : Nat := (153 * mp + 2) / 5 + (dt.day - 1)
  let doe : Nat := yoe * 365 + yoe / 4 - yoe / 100 + doy
  ((era * 146097 + doe : Nat) : Int)

/-- Milliseconds in a day; JavaScript timestamps count milliseconds. -/
def msPerDay : Nat := 86400000

/-- A wall-clock instant: the calendar date plus the time of day in
milliseconds. new Date() in the scripts yields such an instant; calls to
setHours(0,0,0,0) drop the millisecond part. -/
structure Now where
  date : Date
  ms : Nat
deriving DecidableEq, Repr

/-- The getTime() value of an instant, at day-times-milliseconds granularity. -/
def Now.instant (n : Now) : Int := rataDie n.date * (msPerDay : Int) + (n.ms : Int)

/-- The character for a decimal digit below ten. -/
def digitChar (n : Nat) : Char := Char.ofNat (48 + n)

/-- Two-digit zero-padded rendering, as the date-fns format tokens dd and MM
produce for day and month values. -/
def pad2 (n : Nat) : List Char := [digitChar (n / 10), digitChar (n % 10)]

/-- Four-digit zero-padded rendering, as the date-fns format token yyyy
produces for years up to 9999 (the years expressible in the format). -/
def pad4 (n : Nat) : List Char :=
  [digitChar (n / 1000), digitChar (n / 100 % 10), digitChar (n / 10 % 10), digitChar (n % 10)]

/-- Characters of the canonical "dd-MM-yyyy" rendering of a date. -/
def formatChars (d : Date) : List Char :=
  pad2 d.day ++ ('-' :: (pad2 d.month ++ ('-' :: pad4 d.year)))

/-- getFormattedDate from util.ts: format(date, "dd-MM-yyyy"). -/
def getFormattedDate (d : Date) : String := String.mk (formatChars d)

/-- Split a character list at every dash, mirroring how the date-fns parser
of "dd-MM-yyyy" consumes the two literal dash separators. -/
def splitOnDash : List Char → List (List Char)
  | [] => [[]]
  | c :: rest =>
    if c = '-' then [] :: splitOnDash rest
    else match splitOnDash rest with
      | [] => [[c]]
      | h :: t => (c :: h) :: t

/-- All characters are decimal digits. -/
def allDigits (cs : List Char) : Bool := cs.all (fun c => c.isDigit)

/-- Numeric value of a list of digit characters. -/
def digitsToNat (cs : List Char) : Nat :=
  cs.foldl (fun a c => a * 10 + (c.toNat - 48)) 0

/-- Character-level model of the date-fns parse of "dd-MM-yyyy": the day and
month fields match one or two digits, the year field one to four digits, the
separators are literal dashes with nothing left over, and the numeric
components must denote an actual calendar day, else the result is the
invalid date (modelled as none). -/
def parseDateChars (cs : List Char) : Option Date :=
  match splitOnDash cs with
  | [ds, ms, ys] =>
    if allDigits ds && 1 ≤ ds.length && ds.length ≤ 2 &&
       allDigits ms && 1 ≤ ms.length && ms.length ≤ 2 &&
       allDigits ys && 1 ≤ ys.length && ys.length ≤ 4 then
      let cand : Date := ⟨digitsToNat ys, digitsToNat ms, digitsToNat ds⟩
      if cand.valid then some cand else none
    else none
  | _ => none

/-- parseDate from util.ts: parse(dateStr, "dd-MM-yyyy", new Date()); none
models an Invalid Date result (isValid false). -/
def parseDate (s : String) : Option Date := parseDateChars s.data

section RoundTrip

theorem digitChar_ne_dash : ∀ k, k < 10 → digitChar k ≠ '-' := by decide

theorem digitChar_isDigit : ∀ k, k < 10 → (digitChar k).isDigit = true := by decide

theorem digitChar_toNat : ∀ k, k < 10 → (digitChar k).toNat - 48 = k := by decide

theorem splitOnDash_ne_nil (cs : List Char) : splitOnDash cs ≠ [] := by
  induction cs with
  | nil => simp [splitOnDash]
  | cons c rest ih =>
    simp only [splitOnDash]
    split
    · simp
    · split
      · simp
      · simp

theorem splitOnDash_append (a cs : List Char) (h : ∀ c ∈ a, c ≠ '-') :
    splitOnDash (a ++ '-' :: cs) = a :: splitOnDash cs := by
  induction a with
  | nil => simp [splitOnDash]
  | cons c a' ih =>
    have hc : c ≠ '-' := h c (by simp)
    have ih' := ih (fun x hx => h x (by simp [hx]))
    simp only [List.cons_append, splitOnDash, List.append_eq, if_neg hc, ih']

theorem splitOnDash_nodash (a : List Char) (h : ∀ c ∈ a, c ≠ '-') :
    splitOnDash a = [a] := by
  induction a with
  | nil => simp [splitOnDash]
  | cons c a' ih =>
    have hc : c ≠ '-' := h c (by simp)
    have ih' := ih (fun x hx => h x (by simp [hx]))
    simp only [splitOnDash, if_neg hc, ih']

theorem pad2_digits (n : Nat) (h : n < 100) :
    ∀ c ∈ pad2 n, ∃ k, k < 10 ∧ c = digitChar k := by
  intro c hc
  simp only [pad2, List.mem_cons, List.mem_singleton, List.not_mem_nil, or_false] at hc
  rcases hc with h1 | h2
  · exact ⟨n / 10, by omega, h1⟩
  · exact ⟨n % 10, by omega, h2⟩

theorem pad4_digits (n : Nat) (h : n < 10000) :
    ∀ c ∈ pad4 n, ∃ k, k < 10 ∧ c = digitChar k := by
  intro c hc
  simp only [pad4, List.mem_cons, List.mem_singleton, List.not_mem_nil, or_false] at hc
  rcases hc with h1 | h1 | h1 | h1
  · exact ⟨n / 1000, by omega, h1⟩
  · exact ⟨n / 100 % 10, by omega, h1⟩
  · exact ⟨n / 10 % 10, by omega, h1⟩
  · exact ⟨n % 10, by omega, h1⟩

theorem digitsToNat_pad2 (n : Nat) (h : n < 100) : digitsToNat (pad2 n) = n := by
  have h1 := digitChar_toNat (n / 10) (by omega)
  have h2 := digitChar_toNat (n % 10) (by omega)
  simp only [digitsToNat, pad2, List.foldl_cons, List.foldl_nil]
  omega

theorem digitsToNat_pad4 (n : Nat) (h : n < 10000) : digitsToNat (pad4 n) = n := by
  have h1 := digitChar_toNat (n / 1000) (by omega)
  have h2 := digitChar_toNat (n / 100 % 10) (by omega)
  have h3 := digitChar_toNat (n / 10 % 10) (by omega)
  have h4 := digitChar_toNat (n % 10) (by omega)
  simp only [digitsToNat, pad4, List.foldl_cons, List.foldl_nil]
  omega

theorem pad2_allDigits (n : Nat) (h : n < 100) : allDigits (pad2 n) = true := by
  simp only [allDigits, List.all_eq_true]
  intro c hc
  obtain ⟨k, hk, rfl⟩ := pad2_digits n h c hc
  exact digitChar_isDigit k hk

theorem pad4_allDigits (n : Nat) (h : n < 10000) : allDigits (pad4 n) = true := by
  simp only [allDigits, List.all_eq_true]
  intro c hc
  obtain ⟨k, hk, rfl⟩ := pad4_digits n h c hc
  exact digitChar_isDigit k hk

theorem daysInMonth_le_31 (y m : Nat) : daysInMonth y m ≤ 31 := by
  simp only [daysInMonth]
  split
  · split <;> omega
  · split <;> omega

/-- Parsing the canonical rendering of a valid date recovers the date. -/
theorem parse_format (d : Date) (h : d.valid = true) :
    parseDate (getFormattedDate d) = some d := by
  have hval := h
  simp only [Date.valid, Bool.and_eq_true, decide_eq_true_eq] at hval
  obtain ⟨⟨⟨⟨⟨hy1, hy2⟩, hm1⟩, hm2⟩, hd1⟩, hd2⟩ := hval
  have hdle : d.day ≤ 31 := le_trans hd2 (daysInMonth_le_31 d.year d.month)
  have hday : d.day < 100 := by omega
  have hmon : d.month < 100 := by omega
  have hyr : d.year < 10000 := by omega
  have hnd2 : ∀ c ∈ pad2 d.day, c ≠ '-' := by
    intro c hc
    obtain ⟨k, hk, rfl⟩ := pad2_digits d.day hday c hc
    exact digitChar_ne_dash k hk
  have hnm2 : ∀ c ∈ pad2 d.month, c ≠ '-' := by
    intro c hc
    obtain ⟨k, hk, rfl⟩ := pad2_digits d.month hmon c hc
    exact digitChar_ne_dash k hk
  have hny : ∀ c ∈ pad4 d.year, c ≠ '-' := by
    intro c hc
    obtain ⟨k, hk, rfl⟩ := pad4_digits d.year hyr c hc
    exact digitChar_ne_dash k hk
  have hsplit : splitOnDash (formatChars d) = [pad2 d.day, pad2 d.month, pad4 d.year] := by
    simp only [formatChars]
    rw [splitOnDash_append _ _ hnd2, splitOnDash_append _ _ hnm2, splitOnDash_nodash _ hny]
  have hdata : (getFormattedDate d).data = formatChars d := rfl
  simp only [parseDate, getFormattedDate, hdata, parseDateChars, hsplit]
  have hcond : (allDigits (pad2 d.day) && 1 ≤ (pad2 d.day).length &&
      (pad2 d.day).length ≤ 2 && allDigits (pad2 d.month) &&
      1 ≤ (pad2 d.month).length && (pad2 d.month).length ≤ 2 &&
      allDigits (pad4 d.year) && 1 ≤ (pad4 d.year).length &&
      (pad4 d.year).length ≤ 4) = true := by
    have l1 : (pad2 d.day).length = 2 := rfl
    have l2 : (pad2 d.month).length = 2 := rfl
    have l3 : (pad4 d.year).length = 4 := rfl
    simp [pad2_allDigits d.day hday, pad2_allDigits d.month hmon,
      pad4_allDigits d.year hyr, l1, l2, l3]
  rw [if_pos hcond]
  have hback : (⟨digitsToNat (pad4 d.year), digitsToNat (pad2 d.month),
      digitsToNat (pad2 d.day)⟩ : Date) = d := by
    have e1 := digitsToNat_pad4 d.year hyr
    have e2 := digitsToNat_pad2 d.month hmon
    have e3 := digitsToNat_pad2 d.day hday
    simp [e1, e2, e3]
  rw [hback, if_pos h]

/-- A successfully parsed date is valid. -/
theorem parse_valid (s : String) (d : Date) (h : parseDate s = some d) :
    d.valid = true := by
  simp only [parseDate, parseDateChars] at h
  split at h
  · split at h
    · split at h
      · simp only [Option.some_inj] at h
        subst h
        assumption
      · exact absurd h (by simp)
    · exact absurd h (by simp)
  · exact absurd h (by simp)

end RoundTrip

/-!
Ledger data model. The repository stores a list of booking records in
bookings.json. Statuses are the four strings of the README status table;
one code variant spells the no-space status "no_spaces" and another
"no_space", which we model as the single constructor no_space.
-/

/-- Booking status from util.ts. -/
inductive BookingStatus where
  | pending
  | booked
  | failed
  | no_space
deriving DecidableEq, Repr

/-- The string a status renders to in attempt messages. -/
def BookingStatus.str : BookingStatus → String
  | .pending => "pending"
  | .booked => "booked"
  | .failed => "failed"
  | .no_space => "no_space"

/-- Booking record from util.ts (interface Booking): parking_date in the
canonical "dd-MM-yyyy" format, status, creation date, optional date of last
attempt and optional free-text attempt message. -/
structure Booking where
  parking_date : String
  status : BookingStatus
  created_at : String
  last_attempt : Option String := none
  attempt_message : Option String := none
deriving DecidableEq, Repr

/-- Replace the first record whose parking_date equals the key by applying f
to it, returning none when no record matches. This renders the JS pattern of
find-then-mutate-in-place followed by saving the whole array: none models
the branch that returns without saving. -/
def updateFirst (key : String) (f : Booking → Booking) : List Booking → Option (List Booking)
  | [] => none
  | b :: rest =>
    if b.parking_date = key then some (f b :: rest)
    else (updateFirst key f rest).map (fun l => b :: l)

/-- The record mutation performed by updateBookingStatus on the record found
for the attempted date: status becomes the outcome, last_attempt becomes the
formatted current date, and attempt_message is overwritten only when the
message argument is truthy in the JS sense (present and nonempty). -/
def applyOutcome (now : Now) (outcome : BookingStatus) (message : Option String) (b : Booking) : Booking :=
  { b with
    status := outcome,
    last_attempt := some (getFormattedDate now.date),
    attempt_message :=
      match message with
      | some m => if m.data = [] then b.attempt_message else some m
      | none => b.attempt_message }

/-!
Raw ledger records and ledger load. loadBookings reads bookings.json; we
model the state of that file abstractly: absent, unreadable (read error or
JSON parse error), or readable content consisting of raw records whose
fields may individually be missing (or empty, which JS truthiness conflates
with missing).
-/

/-- A record as it sits in the JSON file: every field may be absent. -/
structure RawBooking where
  parking_date : Option String
  status : Option String
  created_at : Option String
  last_attempt : Option String
  attempt_message : Option String
deriving DecidableEq, Repr

/-- Abstract state of the bookings.json file. -/
inductive LedgerFile where
  | absent
  | unreadable
  | content (records : List RawBooking)
deriving DecidableEq, Repr

/-- JS truthiness of an optional string field: present and nonempty. -/
def truthy : Option String → Bool
  | none => false
  | some s => !s.isEmpty

namespace ParkingBooking

/-- loadBookings from parking-booking.ts: a missing file and any read or
parse failure both produce the empty array (never raising), and records
missing a truthy parking_date, status or created_at are filtered out. -/
def loadBookings : LedgerFile → List RawBooking
  | .absent => []
  | .unreadable => []
  | .content rs =>
    rs.filter (fun b => truthy b.parking_date && truthy b.status && truthy b.created_at)

end ParkingBooking

namespace Util

/-- loadBookings from util.ts: a missing file and any read or parse failure
both produce the empty array (never raising); the parsed records are
returned as they are, with no structural validation. -/
def loadBookings : LedgerFile → List RawBooking
  | .absent => []
  | .unreadable => []
  | .content rs => rs

end Util

/-!
Site interaction driver. WayleadrPage in wayleadr-page.ts drives the remote
portal. We embed the outcome classification of submit over the state of the
three outcome indicators, and the shared-zone availability check over the
result of the awaited wait on the no-spaces indicator; an error value stands
for a rejected promise (element timeout).
-/

namespace Wayleadr

/-- Visibility of the three mutually exclusive outcome indicators after the
submission click: success banner, error banner, no-spaces banner. -/
structure SubmitUi where
  success : Bool
  error : Bool
  noSpace : Bool
deriving DecidableEq, Repr

/-- submit from wayleadr-page.ts: click, then race the three indicator
waits; if none ever appears the race rejects (modelled as an error, which
the orchestrator catches); otherwise classify by checking the success
banner first, then the no-spaces banner, defaulting to failed. -/
def submit (ui : SubmitUi) : Except String BookingStatus :=
  if ui.success || ui.error || ui.noSpace then
    Except.ok (if ui.success then BookingStatus.booked
               else if ui.noSpace then BookingStatus.no_space
               else BookingStatus.failed)
  else Except.error "outcome indicators timed out"

/-- The booking outcome the orchestrator records for a submission: the
classification of submit, with a rejected race caught and mapped to failed
by the try/catch around the attempt. -/
def classifySubmit (ui : SubmitUi) : BookingStatus :=
  match submit ui with
  | Except.ok r => r
  | Except.error _ => BookingStatus.failed

/-- isSharedSpaceUnavailable from wayleadr-page.ts: await the no-spaces
indicator inside try/catch, returning true when it appears and false when
the wait rejects (timeout); it never raises. -/
def isSharedSpaceUnavailable (noSpacesWait : Except String Unit) : Bool :=
  match noSpacesWait with
  | Except.ok _ => true
  | Except.error _ => false

end Wayleadr

namespace AddBooking

/-- The statuses the add-booking CLI resets back to pending (RESET_STATUSES
in add-booking.ts). -/
def RESET_STATUSES : List BookingStatus := [BookingStatus.failed, BookingStatus.no_space]

/-- Sort key used by the add-booking CLI: getTime() of the parsed
parking_date, at day granularity. -/
def sortKey (b : Booking) : Int :=
  match parseDate b.parking_date with
  | some d => rataDie d
  | none => 0

/-- Comparator of the add-booking sort: ascending parsed parking_date. -/
def dateLe (a b : Booking) : Bool := decide (sortKey a ≤ sortKey b)

/-- Insert into an already sorted list, before the first record that does
not compare earlier; equal keys keep their original order, matching the
stability guaranteed by Array.prototype.sort. -/
def insertSorted (b : Booking) : List Booking → List Booking
  | [] => [b]
  | c :: rest => if dateLe b c then b :: c :: rest else c :: insertSorted b rest

/-- Stable sort by ascending parking_date (bookings.sort in add-booking.ts). -/
def sortByDate : List Booking → List Booking
  | [] => []
  | b :: rest => insertSorted b (sortByDate rest)

/-- Result of one add-booking invocation: invalid models the rejected-date
exit taken before the ledger is read or written, noop models the early
return false for an existing booked or pending record (nothing saved), and
saved carries the record list passed to saveBookings. -/
inductive AddResult where
  | invalid
  | noop
  | saved (bookings : List Booking)
deriving DecidableEq, Repr

/-- The fresh record pushed for an absent date: pending, created today. -/
def newBooking (today : Date) (dateStr : String) : Booking :=
  { parking_date := dateStr,
    status := BookingStatus.pending,
    created_at := getFormattedDate today,
    last_attempt := none,
    attempt_message := none }

/-- The reset applied to an existing failed or no-space record
(Object.assign in add-booking.ts): back to pending, last_attempt cleared,
attempt_message overridden. -/
def resetBooking (b : Booking) : Booking :=
  { b with
    status := BookingStatus.pending,
    last_attempt := none,
    attempt_message := some "Re-added" }

/-- addBookingEntry from add-booking.ts: reject the date string unless it
parses and reformats to itself; then either reset the first existing record
for that date when its status is failed or no_space, refuse to touch it
when it is booked or pending, or push a fresh pending record; any mutation
is followed by the ascending sort before saving. -/
def addBookingEntry (today : Date) (dateStr : String) (bookings : List Booking) : AddResult :=
  match parseDate dateStr with
  | none => AddResult.invalid
  | some date =>
    if getFormattedDate date ≠ dateStr then AddResult.invalid
    else
      match bookings.find? (fun b => b.parking_date == dateStr) with
      | some existing =>
        if RESET_STATUSES.contains existing.status then
          AddResult.saved (sortByDate ((updateFirst dateStr resetBooking bookings).getD bookings))
        else AddResult.noop
      | none => AddResult.saved (sortByDate (bookings ++ [newBooking today dateStr]))

end AddBooking

namespace Legacy

/-- Retention predicate of the batch orchestrator variant, applied inside
its updateBookingStatus before saving: keep a record when its parking_date
parses and it is pending, or a no-space record dated today or later
(midnight-normalized booking date against midnight-normalized today), or a
booked or failed record whose midnight-normalized date is at or after the
instant seven days before now. -/
def keepBooking (now : Now) (b : Booking) : Bool :=
  match parseDate b.parking_date with
  | none => false
  | some dOb =>
    let t : Int := rataDie dOb * (msPerDay : Int)
    let sevenDaysAgo : Int := now.instant - 7 * (msPerDay : Int)
    let todayMid : Int := rataDie now.date * (msPerDay : Int)
    b.status == BookingStatus.pending ||
    (b.status == BookingStatus.no_space && decide (t ≥ todayMid)) ||
    (b.status == BookingStatus.booked && decide (t ≥ sevenDaysAgo)) ||
    (b.status == BookingStatus.failed && decide (t ≥ sevenDaysAgo))

/-- updateBookingStatus of the batch orchestrator variant: mutate the first
record matching the attempted date (logging a warning but continuing when
none matches), then filter the whole list through the retention predicate
and save the result. -/
def updateBookingStatus (now : Now) (date : Date) (outcome : BookingStatus)
    (message : Option String) (bookings : List Booking) : List Booking :=
  ((updateFirst (getFormattedDate date) (applyOutcome now outcome message) bookings).getD
    bookings).filter (keepBooking now)

end Legacy

/-!
The single-shot orchestrator variant (the daily booking script): scheduler,
post-attempt status update, retention cleanup and the main control flow.
-/

namespace Booker

/-- The predicate findTomorrowsPendingBooking tests on each parsed date:
subtract one day, normalize to midnight, and compare to midnight-normalized
today; an invalid parse (none) has a NaN time and never matches. -/
def tomorrowsEligible (today : Date) : Option Date → Bool
  | some d => rataDie d - 1 == rataDie today
  | none => false

/-- findTomorrowsPendingBooking: filter the ledger to pending records, parse
their parking dates in order, and return the first whose day before equals
today, if any. -/
def findTomorrowsPendingBooking (today : Date) (bookings : List Booking) : Option Date :=
  (((bookings.filter (fun b => b.status == BookingStatus.pending)).map
    (fun b => parseDate b.parking_date)).find? (tomorrowsEligible today)).join

/-- updateBookingStatus of the single-shot variant: find the record for the
formatted attempted date; when none exists log a warning and return without
saving (none); otherwise set its status, last_attempt and (for a truthy
message) attempt_message, and save the full list. -/
def updateBookingStatus (now : Now) (date : Date) (outcome : BookingStatus)
    (message : Option String) (bookings : List Booking) : Option (List Booking) :=
  updateFirst (getFormattedDate date) (applyOutcome now outcome message) bookings

/-- Retention predicate of cleanupOldBookings: keep a record exactly when
its parking_date parses and its midnight-normalized date is at or after the
instant seven days before now, regardless of status. -/
def cleanupKeep (now : Now) (b : Booking) : Bool :=
  match parseDate b.parking_date with
  | none => false
  | some d => decide (rataDie d * (msPerDay : Int) ≥ now.instant - 7 * (msPerDay : Int))

/-- cleanupOldBookings: filter the ledger through the retention predicate
and save the result. -/
def cleanupOldBookings (now : Now) (bookings : List Booking) : List Booking :=
  bookings.filter (cleanupKeep now)

/-- The two zones of the booking form: the default shared pool and the paid
fallback pool. -/
inductive Zone where
  | shared
  | paid
deriving DecidableEq, Repr

/-- One concrete behavior of the site interaction driver for a run: the
result of each awaited page operation, where an error value stands for a
raised or rejected promise. submitRes gives the submission result as a
function of the zone the form was left on. -/
structure Driver where
  loginOk : Except String Unit
  selectDateOk : Except String Unit
  noSpacesWait : Except String Unit
  switchOk : Except String Unit
  submitRes : Zone → Except String BookingStatus

/-- The try block of main in the daily booking script: login, select the
date, switch to paid parking when the shared zone reports no availability,
then submit; any error raised at any step is caught and the result becomes
failed. -/
def attemptBooking (drv : Driver) : BookingStatus :=
  match drv.loginOk with
  | Except.error _ => BookingStatus.failed
  | Except.ok _ =>
    match drv.selectDateOk with
    | Except.error _ => BookingStatus.failed
    | Except.ok _ =>
      if Wayleadr.isSharedSpaceUnavailable drv.noSpacesWait then
        match drv.switchOk with
        | Except.error _ => BookingStatus.failed
        | Except.ok _ =>
          match drv.submitRes Zone.paid with
          | Except.error _ => BookingStatus.failed
          | Except.ok r => r
      else
        match drv.submitRes Zone.shared with
        | Except.error _ => BookingStatus.failed
        | Except.ok r => r

/-- The attempt message main builds after classifying the result. -/
def attemptMsg (now : Now) (result : BookingStatus) : String :=
  if result == BookingStatus.booked then
    "Attempted on " ++ getFormattedDate now.date ++ ". Result: " ++ result.str
  else
    "Booking not successful on " ++ getFormattedDate now.date ++ ". Result: " ++ result.str

/-- Observable outcome of one run of main: the process exit status, the
final contents of the ledger file, how many times the ledger file was
written, and whether a browser session was acquired. -/
structure RunOutcome where
  exitCode : Nat
  ledger : List Booking
  writes : Nat
  driverUsed : Bool
deriving DecidableEq, Repr

/-- main of the daily booking script: exit 1 when credentials are missing;
otherwise ask the scheduler for the date to book, returning as a no-op
success (exit 0, nothing written, no browser) when there is none; otherwise
launch the browser, run the attempt with every error caught as failed,
update the matching record (one write when it exists, none otherwise), run
the retention cleanup (always one write), and exit 0 exactly when the
result is booked. -/
def runMain (credsOk : Bool) (now : Now) (ledger : List Booking) (drv : Driver) : RunOutcome :=
  if credsOk = false then
    { exitCode := 1, ledger := ledger, writes := 0, driverUsed := false }
  else
    match findTomorrowsPendingBooking now.date ledger with
    | none => { exitCode := 0, ledger := ledger, writes := 0, driverUsed := false }
    | some target =>
      let result := attemptBooking drv
      let msg := attemptMsg now result
      let afterUpdate := updateBookingStatus now target result (some msg) ledger
      let l1 := afterUpdate.getD ledger
      let w1 := if afterUpdate.isSome then 1 else 0
      let l2 := cleanupOldBookings now l1
      { exitCode := if result == BookingStatus.booked then 0 else 1,
        ledger := l2, writes := w1 + 1, driverUsed := true }

end Booker

/-!
Helper lemmas shared by the claim theorems.
-/

theorem updateFirst_eq_none (key : String) (f : Booking → Booking) (l : List Booking) :
    updateFirst key f l = none ↔ ∀ b ∈ l, b.parking_date ≠ key := by
  induction l with
  | nil => simp [updateFirst]
  | cons b rest ih =>
    simp only [updateFirst]
    by_cases h : b.parking_date = key
    · simp [h]
    · simp [h, Option.map_eq_none', ih]

theorem updateFirst_first_match (key : String) (f : Booking → Booking)
    (pre post : List Booking) (b : Booking) (hb : b.parking_date = key)
    (hpre : ∀ b2 ∈ pre, b2.parking_date ≠ key) :
    updateFirst key f (pre ++ b :: post) = some (pre ++ f b :: post) := by
  induction pre with
  | nil => simp [updateFirst, hb]
  | cons c pre' ih =>
    have hc : c.parking_date ≠ key := hpre c (by simp)
    have ih' := ih (fun x hx => hpre x (by simp [hx]))
    simp [updateFirst, hc, ih']

namespace Booker

theorem tomorrowsEligible_none (today : Date) : tomorrowsEligible today none = false := rfl

theorem find_chain_first (today : Date) (pre post : List Booking) (b : Booking)
    (hb : b.status = BookingStatus.pending)
    (hel : tomorrowsEligible today (parseDate b.parking_date) = true)
    (hpre : ∀ b2 ∈ pre, b2.status = BookingStatus.pending →
      tomorrowsEligible today (parseDate b2.parking_date) = false) :
    findTomorrowsPendingBooking today (pre ++ b :: post) = parseDate b.parking_date := by
  induction pre with
  | nil =>
    simp only [findTomorrowsPendingBooking, List.nil_append, List.filter_cons, hb]
    simp only [beq_self_eq_true, if_pos, List.map_cons, List.find?_cons, hel]
    cases hp : parseDate b.parking_date with
    | none => rw [hp] at hel; exact absurd hel (by simp [tomorrowsEligible])
    | some d => simp [Option.join]
  | cons c pre' ih =>
    have ih' := ih (fun x hx hpx => hpre x (by simp [hx]) hpx)
    by_cases hc : c.status = BookingStatus.pending
    · have hcel := hpre c (by simp) hc
      simp only [findTomorrowsPendingBooking, List.cons_append, List.filter_cons, hc,
        beq_self_eq_true, if_pos, List.map_cons, List.find?_cons, hcel]
      simpa [findTomorrowsPendingBooking] using ih'
    · have hcne : (c.status == BookingStatus.pending) = false := by
        simp [hc]
      simp only [findTomorrowsPendingBooking, List.cons_append, List.filter_cons, hcne,
        Bool.false_eq_true, if_neg, cond_false]
      simpa [findTomorrowsPendingBooking] using ih'

theorem find_chain_sound (today : Date) (l : List Booking) (d : Date)
    (h : findTomorrowsPendingBooking today l = some d) :
    rataDie d - 1 = rataDie today ∧
      ∃ b ∈ l, b.status = BookingStatus.pending ∧ parseDate b.parking_date = some d := by
  simp only [findTomorrowsPendingBooking] at h
  set mapped := (l.filter (fun b => b.status == BookingStatus.pending)).map
    (fun b => parseDate b.parking_date) with hmapped
  cases hf : mapped.find? (tomorrowsEligible today) with
  | none => rw [hf] at h; exact absurd h (by simp [Option.join])
  | some od =>
    rw [hf] at h
    have hod : od = some d := by
      cases od with
      | none => exact absurd h (by simp [Option.join])
      | some x => simpa [Option.join] using h
    subst hod
    have hq : tomorrowsEligible today (some d) = true := List.find?_some hf
    have hmem : some d ∈ mapped := List.mem_of_find?_eq_some hf
    constructor
    · simpa [tomorrowsEligible] using hq
    · rw [hmapped] at hmem
      simp only [List.mem_map, List.mem_filter, beq_iff_eq] at hmem
      obtain ⟨b, ⟨hbl, hbp⟩, hbd⟩ := hmem
      exact ⟨b, hbl, hbp, hbd⟩

theorem find_chain_none (today : Date) (l : List Booking)
    (h : ∀ b ∈ l, b.status = BookingStatus.pending →
      tomorrowsEligible today (parseDate b.parking_date) = false) :
    findTomorrowsPendingBooking today l = none := by
  simp only [findTomorrowsPendingBooking]
  have : ((l.filter (fun b => b.status == BookingStatus.pending)).map
      (fun b => parseDate b.parking_date)).find? (tomorrowsEligible today) = none := by
    rw [List.find?_eq_none]
    intro x hx
    simp only [List.mem_map, List.mem_filter, beq_iff_eq] at hx
    obtain ⟨b, ⟨hbl, hbp⟩, hbd⟩ := hx
    rw [← hbd]
    simp [h b hbl hbp]
  simp [this, Option.join]

end Booker

namespace AddBooking

theorem insertSorted_perm (b : Booking) (l : List Booking) :
    (insertSorted b l).Perm (b :: l) := by
  induction l with
  | nil => simp [insertSorted]
  | cons c rest ih =>
    simp only [insertSorted]
    split
    · exact List.Perm.refl _
    · exact (List.Perm.cons c ih).trans (List.Perm.swap b c rest)

theorem sortByDate_perm (l : List Booking) : (sortByDate l).Perm l := by
  induction l with
  | nil => simp [sortByDate]
  | cons b rest ih =>
    exact ((insertSorted_perm b (sortByDate rest)).trans (List.Perm.cons b ih))

theorem insertSorted_pairwise (b : Booking) (l : List Booking)
    (h : l.Pairwise (fun x y => sortKey x ≤ sortKey y)) :
    (insertSorted b l).Pairwise (fun x y => sortKey x ≤ sortKey y) := by
  induction l with
  | nil => simp [insertSorted]
  | cons c rest ih =>
    rcases List.pairwise_cons.mp h with ⟨hc, hrest⟩
    simp only [insertSorted]
    split
    · rename_i hle
      have hbc : sortKey b ≤ sortKey c := of_decide_eq_true hle
      refine List.pairwise_cons.mpr ⟨?_, h⟩
      intro y hy
      rcases List.mem_cons.mp hy with rfl | hy2
      · exact hbc
      · exact le_trans hbc (hc y hy2)
    · rename_i hgt
      have hcb : sortKey c ≤ sortKey b := by
        have hlt : sortKey c < sortKey b := by simpa [dateLe] using hgt
        omega
      refine List.pairwise_cons.mpr ⟨?_, ih hrest⟩
      intro y hy
      have hy2 := (insertSorted_perm b rest).mem_iff.mp hy
      rcases List.mem_cons.mp hy2 with rfl | hy3
      · exact hcb
      · exact hc y hy3

theorem sortByDate_pairwise (l : List Booking) :
    (sortByDate l).Pairwise (fun x y => sortKey x ≤ sortKey y) := by
  induction l with
  | nil => simp [sortByDate]
  | cons b rest ih => exact insertSorted_pairwise b (sortByDate rest) ih

end AddBooking

theorem updateFirst_exists_match (key : String) (f : Booking → Booking) (l : List Booking)
    (h : ∃ b ∈ l, b.parking_date = key) :
    ∃ l2, updateFirst key f l = some l2 ∧
      ∃ b ∈ l, b.parking_date = key ∧ f b ∈ l2 := by
  induction l with
  | nil => simp at h
  | cons c rest ih =>
    by_cases hc : c.parking_date = key
    · exact ⟨f c :: rest, by simp [updateFirst, hc], c, by simp, hc, by simp⟩
    · obtain ⟨b, hbl, hbk⟩ := h
      rcases List.mem_cons.mp hbl with rfl | hbr
      · exact absurd hbk hc
      · obtain ⟨l2, hl2, b2, hb2l, hb2k, hfb2⟩ := ih ⟨b, hbr, hbk⟩
        exact ⟨c :: l2, by simp [updateFirst, hc, hl2], b2, by simp [hb2l], hb2k,
          by simp [hfb2]⟩

theorem find_parkingDate_first (key : String) (pre post : List Booking) (ex : Booking)
    (hex : ex.parking_date = key) (hpre : ∀ b ∈ pre, b.parking_date ≠ key) :
    (pre ++ ex :: post).find? (fun b => b.parking_date == key) = some ex := by
  induction pre with
  | nil => simp [List.find?_cons, hex]
  | cons c pre' ih =>
    have hc : c.parking_date ≠ key := hpre c (by simp)
    have ih' := ih (fun x hx => hpre x (by simp [hx]))
    have hcb : (c.parking_date == key) = false := beq_eq_false_iff_ne.mpr hc
    simp only [List.cons_append, List.find?_cons, hcb, cond_false]
    exact ih'

namespace Booker

/-- The disjunction of the error cases of the four remote-interaction steps
on the path the attempt takes: the login, the date selection, the zone
switch (only reached when the shared zone reported no availability), or the
submission on the zone the form was left on. -/
def stepRaised (drv : Driver) : Prop :=
  (∃ e, drv.loginOk = Except.error e) ∨
  (∃ e, drv.selectDateOk = Except.error e) ∨
  (Wayleadr.isSharedSpaceUnavailable drv.noSpacesWait = true ∧
    ∃ e, drv.switchOk = Except.error e) ∨
  (∃ e, drv.submitRes
    (if Wayleadr.isSharedSpaceUnavailable drv.noSpacesWait then Zone.paid else Zone.shared) =
      Except.error e)

theorem attemptMsg_data_ne_nil (now : Now) (r : BookingStatus) :
    (attemptMsg now r).data ≠ [] := by
  simp only [attemptMsg]
  split
  · simp [String.data_append]
  · simp [String.data_append]

end Booker

/-!
Claim theorems.
-/

/-- Claim C1: for every ledger and every today, the scheduler selects
exactly the first record in ledger order whose status is pending and whose
parking date, less one day (normalized to midnight), equals today: any such
record preceded by no earlier such record is the one selected (its parsed
date is returned), and conversely a selected date always comes from a
pending record of the ledger whose day before is today. -/
theorem c1_scheduler_first_eligible_pending (today : Date) (bookings : List Booking) :
    (∀ pre b post d, bookings = pre ++ b :: post →
      b.status = BookingStatus.pending →
      parseDate b.parking_date = some d →
      rataDie d - 1 = rataDie today →
      (∀ b2 ∈ pre, ¬(b2.status = BookingStatus.pending ∧
        ∃ d2, parseDate b2.parking_date = some d2 ∧ rataDie d2 - 1 = rataDie today)) →
      Booker.findTomorrowsPendingBooking today bookings = some d) ∧
    (∀ d, Booker.findTomorrowsPendingBooking today bookings = some d →
      rataDie d - 1 = rataDie today ∧
        ∃ b ∈ bookings, b.status = BookingStatus.pending ∧
          parseDate b.parking_date = some d) := by
  constructor
  · intro pre b post d hdec hst hparse hrata hfirst
    have hel : Booker.tomorrowsEligible today (parseDate b.parking_date) = true := by
      rw [hparse]
      simp [Booker.tomorrowsEligible, hrata]
    have hpre : ∀ b2 ∈ pre, b2.status = BookingStatus.pending →
        Booker.tomorrowsEligible today (parseDate b2.parking_date) = false := by
      intro b2 hb2 hst2
      cases hp2 : parseDate b2.parking_date with
      | none => rfl
      | some d2 =>
        simp only [Booker.tomorrowsEligible, beq_eq_false_iff_ne, ne_eq]
        intro heq
        exact hfirst b2 hb2 ⟨hst2, d2, hp2, heq⟩
    rw [hdec, Booker.find_chain_first today pre post b hst hel hpre, hparse]
  · intro d h
    exact Booker.find_chain_sound today bookings d h

/-- Witness for C1 at the scenario of the spec: the ledger holds exactly one
pending record, for 10-03-2025, and today is 09-03-2025; the scheduler
selects that date. -/
theorem c1_witness :
    Booker.findTomorrowsPendingBooking ⟨2025, 3, 9⟩
      [{ parking_date := "10-03-2025", status := BookingStatus.pending,
         created_at := "01-03-2025" }] = some ⟨2025, 3, 10⟩ :=
  (c1_scheduler_first_eligible_pending ⟨2025, 3, 9⟩ _).1 [] _ [] ⟨2025, 3, 10⟩ rfl rfl
    (by decide) (by decide) (by simp)

/-- Claim C2: the submission step classifies with the precedence success
before no-space before error: the recorded outcome is booked exactly when
the success indicator is visible, otherwise no-space exactly when the
no-spaces indicator is visible, and in every remaining case, including an
error banner, an all-indicator timeout (the race rejecting, caught by the
orchestrator) and any ambiguous combination, the outcome is failed; in
particular an ambiguous or timed-out state is never reported as success. -/
theorem c2_submit_fail_closed (ui : Wayleadr.SubmitUi) :
    (Wayleadr.classifySubmit ui = BookingStatus.booked ↔ ui.success = true) ∧
    (ui.success = false →
      (Wayleadr.classifySubmit ui = BookingStatus.no_space ↔ ui.noSpace = true)) ∧
    (ui.success = false → ui.noSpace = false →
      Wayleadr.classifySubmit ui = BookingStatus.failed) := by
  obtain ⟨s, e, n⟩ := ui
  cases s <;> cases e <;> cases n <;>
    simp [Wayleadr.classifySubmit, Wayleadr.submit]

/-- Witness for C2: with no indicator ever appearing (the timeout case) the
outcome is failed. -/
theorem c2_witness :
    Wayleadr.classifySubmit ⟨false, false, false⟩ = BookingStatus.failed :=
  (c2_submit_fail_closed ⟨false, false, false⟩).2.2 rfl rfl

/-- Claim C7: formatting any date expressible in the canonical day-month-year
format, parsing the result and reformatting reproduces the original string
bit for bit; and the add-booking operation rejects, before touching the
ledger, every input string for which parse-then-reformat does not reproduce
the input. -/
theorem c7_roundtrip_and_rejection :
    (∀ d : Date, d.valid = true →
      (parseDate (getFormattedDate d)).map getFormattedDate =
        some (getFormattedDate d)) ∧
    (∀ (today : Date) (s : String) (bookings : List Booking),
      (parseDate s).map getFormattedDate ≠ some s →
      AddBooking.addBookingEntry today s bookings = AddBooking.AddResult.invalid) := by
  constructor
  · intro d h
    rw [parse_format d h]
    rfl
  · intro today s bookings h
    simp only [AddBooking.addBookingEntry]
    cases hp : parseDate s with
    | none => rfl
    | some date =>
      rw [hp] at h
      have hne : getFormattedDate date ≠ s := by
        intro heq
        exact h (by simp [heq])
      simp [hne]

/-- Witness for C7: the round trip at 31-12-2025, and rejection of the
month-thirteen string 31-13-2025 on a nonempty ledger it leaves alone. -/
theorem c7_witness :
    (parseDate (getFormattedDate ⟨2025, 12, 31⟩)).map getFormattedDate =
      some (getFormattedDate ⟨2025, 12, 31⟩) ∧
    AddBooking.addBookingEntry ⟨2025, 1, 1⟩ "31-13-2025"
      [{ parking_date := "10-03-2025", status := BookingStatus.pending,
         created_at := "01-03-2025" }] = AddBooking.AddResult.invalid :=
  ⟨c7_roundtrip_and_rejection.1 ⟨2025, 12, 31⟩ (by decide),
   c7_roundtrip_and_rejection.2 ⟨2025, 1, 1⟩ "31-13-2025" _ (by decide)⟩

/-- Claim C4: for a valid canonical date string the add-booking operation is
an upsert: with no record for the date it appends a fresh pending record
created today and saves the sorted result; with a first matching record in
failed or no-space status it resets that record to pending with the message
override and a cleared last attempt and saves the sorted result; with a
first matching record in booked or pending status it leaves the ledger
untouched and saves nothing; every saved ledger is a permutation of the
mutated list sorted by parking date ascending. -/
theorem c4_add_booking_upsert (today : Date) (dateStr : String) (bookings : List Booking)
    (date : Date) (hp : parseDate dateStr = some date)
    (hf : getFormattedDate date = dateStr) :
    ((∀ b ∈ bookings, b.parking_date ≠ dateStr) →
      ∃ l, AddBooking.addBookingEntry today dateStr bookings = AddBooking.AddResult.saved l ∧
        l.Perm (bookings ++ [AddBooking.newBooking today dateStr]) ∧
        l.Pairwise (fun x y => AddBooking.sortKey x ≤ AddBooking.sortKey y)) ∧
    (∀ pre ex post, bookings = pre ++ ex :: post →
      ex.parking_date = dateStr →
      (∀ b ∈ pre, b.parking_date ≠ dateStr) →
      (ex.status = BookingStatus.failed ∨ ex.status = BookingStatus.no_space) →
      ∃ l, AddBooking.addBookingEntry today dateStr bookings = AddBooking.AddResult.saved l ∧
        l.Perm (pre ++ AddBooking.resetBooking ex :: post) ∧
        l.Pairwise (fun x y => AddBooking.sortKey x ≤ AddBooking.sortKey y)) ∧
    (∀ pre ex post, bookings = pre ++ ex :: post →
      ex.parking_date = dateStr →
      (∀ b ∈ pre, b.parking_date ≠ dateStr) →
      (ex.status = BookingStatus.booked ∨ ex.status = BookingStatus.pending) →
      AddBooking.addBookingEntry today dateStr bookings = AddBooking.AddResult.noop) ∧
    ((∀ b : Booking,
      (AddBooking.resetBooking b).status = BookingStatus.pending ∧
      (AddBooking.resetBooking b).last_attempt = none ∧
      (AddBooking.resetBooking b).attempt_message = some "Re-added" ∧
      (AddBooking.resetBooking b).parking_date = b.parking_date ∧
      (AddBooking.resetBooking b).created_at = b.created_at) ∧
      (AddBooking.newBooking today dateStr).status = BookingStatus.pending ∧
      (AddBooking.newBooking today dateStr).created_at = getFormattedDate today ∧
      (AddBooking.newBooking today dateStr).parking_date = dateStr ∧
      (AddBooking.newBooking today dateStr).last_attempt = none) := by
  refine ⟨?_, ?_, ?_, ?_⟩
  · intro habs
    have hfind : bookings.find? (fun b => b.parking_date == dateStr) = none := by
      rw [List.find?_eq_none]
      intro b hb
      simpa using habs b hb
    refine ⟨AddBooking.sortByDate (bookings ++ [AddBooking.newBooking today dateStr]), ?_,
      AddBooking.sortByDate_perm _, AddBooking.sortByDate_pairwise _⟩
    simp [AddBooking.addBookingEntry, hp, hf, hfind]
  · intro pre ex post hdec hex hpre hst
    have hfind : bookings.find? (fun b => b.parking_date == dateStr) = some ex := by
      rw [hdec]
      exact find_parkingDate_first dateStr pre post ex hex hpre
    have hcont : ex.status ∈ AddBooking.RESET_STATUSES := by
      rcases hst with h | h <;> simp [AddBooking.RESET_STATUSES, h]
    have hupd : updateFirst dateStr AddBooking.resetBooking bookings =
        some (pre ++ AddBooking.resetBooking ex :: post) := by
      rw [hdec]
      exact updateFirst_first_match dateStr _ pre post ex hex hpre
    refine ⟨AddBooking.sortByDate (pre ++ AddBooking.resetBooking ex :: post), ?_,
      AddBooking.sortByDate_perm _, AddBooking.sortByDate_pairwise _⟩
    simp [AddBooking.addBookingEntry, hp, hf, hfind, hcont, hupd]
  · intro pre ex post hdec hex hpre hst
    have hfind : bookings.find? (fun b => b.parking_date == dateStr) = some ex := by
      rw [hdec]
      exact find_parkingDate_first dateStr pre post ex hex hpre
    have hcont : ex.status ∉ AddBooking.RESET_STATUSES := by
      rcases hst with h | h <;> simp [AddBooking.RESET_STATUSES, h]
    simp [AddBooking.addBookingEntry, hp, hf, hfind, hcont]
  · exact ⟨fun b => ⟨rfl, rfl, rfl, rfl, rfl⟩, rfl, rfl, rfl, rfl⟩

/-- Witness for C4 at the scenario of the spec: adding 31-12-2025 to the
empty ledger yields exactly one pending record created today. -/
theorem c4_witness :
    ∃ l, AddBooking.addBookingEntry ⟨2025, 12, 1⟩ "31-12-2025" [] =
        AddBooking.AddResult.saved l ∧
      l.Perm ([] ++ [AddBooking.newBooking ⟨2025, 12, 1⟩ "31-12-2025"]) ∧
      l.Pairwise (fun x y => AddBooking.sortKey x ≤ AddBooking.sortKey y) :=
  (c4_add_booking_upsert ⟨2025, 12, 1⟩ "31-12-2025" [] ⟨2025, 12, 31⟩
    (by decide) (by decide)).1 (by simp)

/-- Claim C10: the post-attempt status update writes nothing at all when no
record has the attempted date (none), and otherwise replaces exactly the
first matching record, leaving every record before and after it unchanged;
the replacement changes only status, last attempt and attempt message,
preserving parking date and creation date. -/
theorem c10_update_status_frame (now : Now) (date : Date) (outcome : BookingStatus)
    (message : Option String) (bookings : List Booking) :
    (Booker.updateBookingStatus now date outcome message bookings = none ↔
      ∀ b ∈ bookings, b.parking_date ≠ getFormattedDate date) ∧
    (∀ pre b post, bookings = pre ++ b :: post →
      b.parking_date = getFormattedDate date →
      (∀ b2 ∈ pre, b2.parking_date ≠ getFormattedDate date) →
      Booker.updateBookingStatus now date outcome message bookings =
        some (pre ++ applyOutcome now outcome message b :: post)) ∧
    (∀ b : Booking,
      (applyOutcome now outcome message b).parking_date = b.parking_date ∧
      (applyOutcome now outcome message b).created_at = b.created_at ∧
      (applyOutcome now outcome message b).status = outcome ∧
      (applyOutcome now outcome message b).last_attempt =
        some (getFormattedDate now.date)) := by
  refine ⟨updateFirst_eq_none _ _ _, ?_, fun b => ⟨rfl, rfl, rfl, rfl⟩⟩
  intro pre b post hdec hb hpre
  rw [Booker.updateBookingStatus, hdec]
  exact updateFirst_first_match _ _ pre post b hb hpre

/-- Witness for C10: updating the one-record ledger for its own date
replaces exactly that record. -/
theorem c10_witness :
    Booker.updateBookingStatus ⟨⟨2025, 3, 9⟩, 0⟩ ⟨2025, 3, 10⟩ BookingStatus.booked none
      [{ parking_date := "10-03-2025", status := BookingStatus.pending,
         created_at := "01-03-2025" }] =
    some ([] ++ applyOutcome ⟨⟨2025, 3, 9⟩, 0⟩ BookingStatus.booked none
      { parking_date := "10-03-2025", status := BookingStatus.pending,
        created_at := "01-03-2025" } :: []) :=
  (c10_update_status_frame ⟨⟨2025, 3, 9⟩, 0⟩ ⟨2025, 3, 10⟩ BookingStatus.booked none _).2.1
    [] _ [] rfl (by decide) (by simp)

/-- Counterexample to Claim C3 as stated: the retention step of the
single-shot orchestrator (cleanupOldBookings) drops a pending record whose
parking date lies before the seven-day window, although the claim states a
pending record is never dropped regardless of age: with today 20-03-2025
the pending record for 01-01-2025 is removed. -/
theorem c3_cleanup_drops_old_pending :
    ({ parking_date := "01-01-2025", status := BookingStatus.pending,
       created_at := "01-01-2025" } : Booking).status = BookingStatus.pending ∧
    Booker.cleanupOldBookings ⟨⟨2025, 3, 20⟩, 0⟩
      [{ parking_date := "01-01-2025", status := BookingStatus.pending,
         created_at := "01-01-2025" }] = [] := by
  exact ⟨rfl, by decide⟩

/-- Claim C3 amended: the retention filter of the batch orchestrator keeps a
record exactly when its parking date parses and it is pending, or no-space
dated today or later, or booked or failed within the trailing seven-day
window; the separate cleanupOldBookings step of the single-shot orchestrator
instead keeps exactly the records whose parsed parking date lies within the
trailing seven-day window, regardless of status, so there an old pending
record is dropped and a recent one of any status is kept. -/
theorem c3_retention_characterized (now : Now) (bookings : List Booking) (b : Booking) :
    (b ∈ bookings.filter (Legacy.keepBooking now) ↔
      b ∈ bookings ∧ ∃ d, parseDate b.parking_date = some d ∧
        (b.status = BookingStatus.pending ∨
         (b.status = BookingStatus.no_space ∧
           rataDie d * (msPerDay : Int) ≥ rataDie now.date * (msPerDay : Int)) ∨
         ((b.status = BookingStatus.booked ∨ b.status = BookingStatus.failed) ∧
           rataDie d * (msPerDay : Int) ≥ now.instant - 7 * (msPerDay : Int)))) ∧
    (b ∈ Booker.cleanupOldBookings now bookings ↔
      b ∈ bookings ∧ ∃ d, parseDate b.parking_date = some d ∧
        rataDie d * (msPerDay : Int) ≥ now.instant - 7 * (msPerDay : Int)) := by
  constructor
  · rw [List.mem_filter]
    apply and_congr_right
    intro _
    simp only [Legacy.keepBooking]
    cases hpd : parseDate b.parking_date with
    | none => simp
    | some d =>
      cases hs : b.status <;> simp [hs, ge_iff_le]
  · rw [Booker.cleanupOldBookings, List.mem_filter]
    apply and_congr_right
    intro _
    simp only [Booker.cleanupKeep]
    cases hpd : parseDate b.parking_date with
    | none => simp
    | some d => simp [ge_iff_le]

/-- Counterexample to Claim C9 as stated: the loadBookings of util.ts, used
by the final variant, returns a record missing the required created_at
field instead of dropping it. -/
theorem c9_util_load_keeps_incomplete_record :
    ({ parking_date := some "10-03-2025", status := some "pending",
       created_at := none, last_attempt := none, attempt_message := none } :
      RawBooking).created_at = none ∧
    Util.loadBookings (LedgerFile.content
      [{ parking_date := some "10-03-2025", status := some "pending",
         created_at := none, last_attempt := none, attempt_message := none }]) =
      [{ parking_date := some "10-03-2025", status := some "pending",
         created_at := none, last_attempt := none, attempt_message := none }] :=
  ⟨rfl, rfl⟩

/-- Claim C9 amended: both ledger loads are total (never raising) and return
the empty sequence for an absent, unreadable or unparsable file; the load of
parking-booking.ts additionally drops every record lacking a truthy
parking date, status or creation date, while the load of util.ts returns
the parsed records unfiltered. -/
theorem c9_load_never_raises (rs : List RawBooking) (r : RawBooking) :
    (ParkingBooking.loadBookings LedgerFile.absent = [] ∧
     ParkingBooking.loadBookings LedgerFile.unreadable = [] ∧
     Util.loadBookings LedgerFile.absent = [] ∧
     Util.loadBookings LedgerFile.unreadable = []) ∧
    Util.loadBookings (LedgerFile.content rs) = rs ∧
    (r ∈ ParkingBooking.loadBookings (LedgerFile.content rs) ↔
      r ∈ rs ∧ truthy r.parking_date = true ∧ truthy r.status = true ∧
        truthy r.created_at = true) := by
  refine ⟨⟨rfl, rfl, rfl, rfl⟩, rfl, ?_⟩
  rw [ParkingBooking.loadBookings, List.mem_filter]
  simp [and_assoc]

/-- Driver behavior in which the shared zone reports no availability, the
zone-switch interaction itself raises (dropdown timeout), and any
submission would succeed. -/
def drvSwitchTimeout : Booker.Driver :=
  { loginOk := Except.ok (), selectDateOk := Except.ok (),
    noSpacesWait := Except.ok (), switchOk := Except.error "zone dropdown timeout",
    submitRes := fun _ => Except.ok BookingStatus.booked }

/-- Counterexample to Claim C5 as stated: when the default zone reports no
availability the attempt does not always proceed to submission — here the
zone switch raises, the error is caught, and the attempt ends failed even
though submission in either zone would have returned booked, so the
zone-resolution step failed the attempt on its own. -/
theorem c5_switch_failure_fails_attempt :
    Wayleadr.isSharedSpaceUnavailable drvSwitchTimeout.noSpacesWait = true ∧
    drvSwitchTimeout.submitRes Booker.Zone.paid = Except.ok BookingStatus.booked ∧
    Booker.attemptBooking drvSwitchTimeout = BookingStatus.failed :=
  ⟨rfl, rfl, rfl⟩

/-- Claim C5 amended: the availability check itself never fails the attempt:
when the no-spaces indicator is absent (its wait times out) the attempt
proceeds with the default zone, independently of the zone-switch behavior;
when the default zone reports no availability and the zone-switch
interaction succeeds, the attempt proceeds to submission on the fallback
paid zone; a failure raised while switching zones is caught and fails the
attempt like any other step error; and a driver reporting no space in the
default zone and booked after the fallback yields a final ledger record
with status booked. -/
theorem c5_zone_fallback (drv : Booker.Driver) :
    (∀ e, drv.noSpacesWait = Except.error e →
      (∀ sw, Booker.attemptBooking { drv with switchOk := sw } =
        Booker.attemptBooking drv) ∧
      (drv.loginOk = Except.ok () → drv.selectDateOk = Except.ok () →
        ∀ r, drv.submitRes Booker.Zone.shared = Except.ok r →
          Booker.attemptBooking drv = r)) ∧
    (drv.noSpacesWait = Except.ok () → drv.switchOk = Except.ok () →
      drv.loginOk = Except.ok () → drv.selectDateOk = Except.ok () →
      ∀ r, drv.submitRes Booker.Zone.paid = Except.ok r →
        Booker.attemptBooking drv = r) ∧
    (∀ (now : Now) (date : Date) (pre post : List Booking) (b : Booking)
      (msg : Option String),
      drv.noSpacesWait = Except.ok () → drv.switchOk = Except.ok () →
      drv.loginOk = Except.ok () → drv.selectDateOk = Except.ok () →
      drv.submitRes Booker.Zone.shared = Except.ok BookingStatus.no_space →
      drv.submitRes Booker.Zone.paid = Except.ok BookingStatus.booked →
      b.parking_date = getFormattedDate date →
      (∀ b2 ∈ pre, b2.parking_date ≠ getFormattedDate date) →
      Booker.attemptBooking drv = BookingStatus.booked ∧
      Booker.updateBookingStatus now date (Booker.attemptBooking drv) msg
          (pre ++ b :: post) =
        some (pre ++ applyOutcome now BookingStatus.booked msg b :: post)) := by
  obtain ⟨lo, se, nw, sw0, su⟩ := drv
  refine ⟨?_, ?_, ?_⟩
  · intro e he
    subst he
    constructor
    · intro sw
      simp [Booker.attemptBooking, Wayleadr.isSharedSpaceUnavailable]
    · intro hl hs r hsub
      subst hl
      subst hs
      have hsub2 : su Booker.Zone.shared = Except.ok r := hsub
      simp [Booker.attemptBooking, Wayleadr.isSharedSpaceUnavailable, hsub2]
  · intro hn hsw hl hs r hsub
    subst hn
    subst hsw
    subst hl
    subst hs
    have hsub2 : su Booker.Zone.paid = Except.ok r := hsub
    simp [Booker.attemptBooking, Wayleadr.isSharedSpaceUnavailable, hsub2]
  · intro now date pre post b msg hn hsw hl hs hshared hpaid hb hpre
    subst hn
    subst hsw
    subst hl
    subst hs
    have hab : Booker.attemptBooking
        { loginOk := Except.ok (), selectDateOk := Except.ok (),
          noSpacesWait := Except.ok (), switchOk := Except.ok (), submitRes := su } =
        BookingStatus.booked := by
      have hpaid2 : su Booker.Zone.paid = Except.ok BookingStatus.booked := hpaid
      simp [Booker.attemptBooking, Wayleadr.isSharedSpaceUnavailable, hpaid2]
    refine ⟨hab, ?_⟩
    rw [hab, Booker.updateBookingStatus]
    exact updateFirst_first_match _ _ pre post b hb hpre

/-- Driver behavior of the spec scenario for C5: shared zone reports no
space, fallback submission books. -/
def drvFallback : Booker.Driver :=
  { loginOk := Except.ok (), selectDateOk := Except.ok (),
    noSpacesWait := Except.ok (), switchOk := Except.ok (),
    submitRes := fun z => match z with
      | Booker.Zone.shared => Except.ok BookingStatus.no_space
      | Booker.Zone.paid => Except.ok BookingStatus.booked }

/-- Witness for C5 (amended): the no-space-then-booked driver produces a
booked attempt and the matching ledger record ends up booked. -/
theorem c5_witness :
    Booker.attemptBooking drvFallback = BookingStatus.booked ∧
    Booker.updateBookingStatus ⟨⟨2025, 3, 9⟩, 0⟩ ⟨2025, 3, 10⟩
        (Booker.attemptBooking drvFallback) none
        ([] ++ { parking_date := "10-03-2025", status := BookingStatus.pending,
                 created_at := "01-03-2025" } :: []) =
      some ([] ++ applyOutcome ⟨⟨2025, 3, 9⟩, 0⟩ BookingStatus.booked none
        { parking_date := "10-03-2025", status := BookingStatus.pending,
          created_at := "01-03-2025" } :: []) :=
  (c5_zone_fallback drvFallback).2.2 ⟨⟨2025, 3, 9⟩, 0⟩ ⟨2025, 3, 10⟩ [] [] _ none
    rfl rfl rfl rfl rfl rfl (by decide) (by simp)

/-- Claim C8: when no pending record of the ledger is eligible today the run
is a no-op success: exit status zero, the ledger file never written, no
browser session acquired and the ledger left as it was. -/
theorem c8_noop_run (now : Now) (ledger : List Booking) (drv : Booker.Driver)
    (h : ∀ b ∈ ledger, b.status = BookingStatus.pending →
      Booker.tomorrowsEligible now.date (parseDate b.parking_date) = false) :
    Booker.runMain true now ledger drv =
      { exitCode := 0, ledger := ledger, writes := 0, driverUsed := false } := by
  have hfind := Booker.find_chain_none now.date ledger h
  simp [Booker.runMain, hfind]

/-- Witness for C8: a ledger whose only record is already booked triggers no
attempt; the run exits zero without writes or a browser session. -/
theorem c8_witness :
    Booker.runMain true ⟨⟨2025, 3, 9⟩, 27000000⟩
      [{ parking_date := "10-03-2025", status := BookingStatus.booked,
         created_at := "01-03-2025" }] drvFallback =
      { exitCode := 0,
        ledger := [{ parking_date := "10-03-2025", status := BookingStatus.booked,
                     created_at := "01-03-2025" }],
        writes := 0, driverUsed := false } :=
  c8_noop_run ⟨⟨2025, 3, 9⟩, 27000000⟩ _ drvFallback (by decide)

/-- Claim C6: for a run that performs a booking attempt the process exit
status is zero exactly when the classified outcome is booked; an error
raised at any interaction step on the path taken (login, date selection,
zone switch or submission) is caught and classifies the attempt as failed;
and a failed attempt exits nonzero and, whenever the ledger holds a record
for the attempted date, leaves that record in the final ledger with status
failed, the attempt date recorded and the failure message attached. -/
theorem c6_exit_status_and_caught_errors (now : Now) (ledger : List Booking)
    (drv : Booker.Driver) (target : Date)
    (hms : now.ms < msPerDay)
    (hfind : Booker.findTomorrowsPendingBooking now.date ledger = some target) :
    ((Booker.runMain true now ledger drv).exitCode = 0 ↔
      Booker.attemptBooking drv = BookingStatus.booked) ∧
    (Booker.stepRaised drv → Booker.attemptBooking drv = BookingStatus.failed) ∧
    (Booker.attemptBooking drv = BookingStatus.failed →
      (Booker.runMain true now ledger drv).exitCode = 1 ∧
      ((∃ b ∈ ledger, b.parking_date = getFormattedDate target) →
        ∃ b2 ∈ (Booker.runMain true now ledger drv).ledger,
          b2.parking_date = getFormattedDate target ∧
          b2.status = BookingStatus.failed ∧
          b2.last_attempt = some (getFormattedDate now.date) ∧
          b2.attempt_message = some (Booker.attemptMsg now BookingStatus.failed))) := by
  have hrun : Booker.runMain true now ledger drv =
      { exitCode := if Booker.attemptBooking drv == BookingStatus.booked then 0 else 1,
        ledger := Booker.cleanupOldBookings now
          ((Booker.updateBookingStatus now target (Booker.attemptBooking drv)
            (some (Booker.attemptMsg now (Booker.attemptBooking drv))) ledger).getD ledger),
        writes := (if (Booker.updateBookingStatus now target (Booker.attemptBooking drv)
            (some (Booker.attemptMsg now (Booker.attemptBooking drv)))
            ledger).isSome then 1 else 0) + 1,
        driverUsed := true } := by
    simp [Booker.runMain, hfind]
  refine ⟨?_, ?_, ?_⟩
  · rw [hrun]
    cases hab : Booker.attemptBooking drv <;> simp [hab]
  · intro hsr
    obtain ⟨lo, se, nw, sw0, su⟩ := drv
    rcases hsr with ⟨e, he⟩ | ⟨e, he⟩ | ⟨hsh, e, he⟩ | ⟨e, he⟩
    · have he2 : lo = Except.error e := he
      simp [Booker.attemptBooking, he2]
    · have he2 : se = Except.error e := he
      cases lo with
      | error e3 => simp [Booker.attemptBooking]
      | ok u =>
        cases u
        simp [Booker.attemptBooking, he2]
    · have hsh2 : Wayleadr.isSharedSpaceUnavailable nw = true := hsh
      have he2 : sw0 = Except.error e := he
      cases lo with
      | error e3 => simp [Booker.attemptBooking]
      | ok u =>
        cases u
        cases se with
        | error e3 => simp [Booker.attemptBooking]
        | ok u2 =>
          cases u2
          simp [Booker.attemptBooking, hsh2, he2]
    · cases lo with
      | error e3 => simp [Booker.attemptBooking]
      | ok u =>
        cases u
        cases se with
        | error e3 => simp [Booker.attemptBooking]
        | ok u2 =>
          cases u2
          cases hnw : Wayleadr.isSharedSpaceUnavailable nw with
          | true =>
            have he2 : su Booker.Zone.paid = Except.error e := by
              have := he
              simp only [hnw, if_true] at this
              exact this
            cases sw0 with
            | error e3 => simp [Booker.attemptBooking, hnw]
            | ok u3 =>
              cases u3
              simp [Booker.attemptBooking, hnw, he2]
          | false =>
            have he2 : su Booker.Zone.shared = Except.error e := by
              have := he
              simp only [hnw, if_false] at this
              exact this
            simp [Booker.attemptBooking, hnw, he2]
  · intro hfail
    rw [hrun]
    simp only [hfail]
    refine ⟨rfl, ?_⟩
    intro hmem
    obtain ⟨hrata, b3, hb3l, hb3p, hb3d⟩ := Booker.find_chain_sound now.date ledger target hfind
    have hval : target.valid = true := parse_valid b3.parking_date target hb3d
    have hparsekey : parseDate (getFormattedDate target) = some target := parse_format target hval
    obtain ⟨l2, hl2, b1, hb1l, hb1k, hfb1⟩ :=
      updateFirst_exists_match (getFormattedDate target)
        (applyOutcome now BookingStatus.failed
          (some (Booker.attemptMsg now BookingStatus.failed))) ledger hmem
    have hupd : Booker.updateBookingStatus now target BookingStatus.failed
        (some (Booker.attemptMsg now BookingStatus.failed)) ledger = some l2 := hl2
    rw [hupd]
    simp only [Option.getD_some]
    set b2 := applyOutcome now BookingStatus.failed
      (some (Booker.attemptMsg now BookingStatus.failed)) b1 with hb2
    have hb2pd : b2.parking_date = getFormattedDate target := by
      rw [hb2]
      exact hb1k
    have hkeep : Booker.cleanupKeep now b2 = true := by
      simp only [Booker.cleanupKeep, hb2pd, hparsekey]
      rw [decide_eq_true_eq]
      have hins : now.instant = rataDie now.date * (msPerDay : Int) + (now.ms : Int) := rfl
      have hm : (msPerDay : Int) = 86400000 := rfl
      rw [hins, hm]
      have hmsn : now.ms < 86400000 := hms
      have hms2 : (now.ms : Int) < 86400000 := by
        exact_mod_cast hmsn
      have hr2 : rataDie target - 1 = rataDie now.date := hrata
      omega
    refine ⟨b2, List.mem_filter.mpr ⟨hfb1, hkeep⟩, hb2pd, rfl, rfl, ?_⟩
    rw [hb2]
    simp [applyOutcome, Booker.attemptMsg_data_ne_nil now BookingStatus.failed]

/-- Witness for C6: with an authentication failure on login and a ledger
holding the pending record for tomorrow, the run exits nonzero and the
record ends failed with the failure message. -/
theorem c6_witness :
    ((Booker.runMain true ⟨⟨2025, 3, 9⟩, 16200000⟩
      [{ parking_date := "10-03-2025", status := BookingStatus.pending,
         created_at := "01-03-2025" }]
      { loginOk := Except.error "AuthenticationError", selectDateOk := Except.ok (),
        noSpacesWait := Except.error "no banner", switchOk := Except.ok (),
        submitRes := fun _ => Except.ok BookingStatus.booked }).exitCode = 0 ↔
      Booker.attemptBooking
        { loginOk := Except.error "AuthenticationError", selectDateOk := Except.ok (),
          noSpacesWait := Except.error "no banner", switchOk := Except.ok (),
          submitRes := fun _ => Except.ok BookingStatus.booked } =
        BookingStatus.booked) ∧
    Booker.attemptBooking
      { loginOk := Except.error "AuthenticationError", selectDateOk := Except.ok (),
        noSpacesWait := Except.error "no banner", switchOk := Except.ok (),
        submitRes := fun _ => Except.ok BookingStatus.booked } = BookingStatus.failed ∧
    (Booker.runMain true ⟨⟨2025, 3, 9⟩, 16200000⟩
      [{ parking_date := "10-03-2025", status := BookingStatus.pending,
         created_at := "01-03-2025" }]
      { loginOk := Except.error "AuthenticationError", selectDateOk := Except.ok (),
        noSpacesWait := Except.error "no banner", switchOk := Except.ok (),
        submitRes := fun _ => Except.ok BookingStatus.booked }).exitCode = 1 := by
  have h := c6_exit_status_and_caught_errors ⟨⟨2025, 3, 9⟩, 16200000⟩
    [{ parking_date := "10-03-2025", status := BookingStatus.pending,
       created_at := "01-03-2025" }]
    { loginOk := Except.error "AuthenticationError", selectDateOk := Except.ok (),
      noSpacesWait := Except.error "no banner", switchOk := Except.ok (),
      submitRes := fun _ => Except.ok BookingStatus.booked }
    ⟨2025, 3, 10⟩ (by decide) (by decide)
  have hfailed := h.2.1 (Or.inl ⟨"AuthenticationError", rfl⟩)
  exact ⟨h.1, hfailed, (h.2.2 hfailed).1⟩
